import Mathlib

/-!
Shallow embedding of the embedded grading controller
(`src/iot/esp32_iot.ino`) of the DragonFruit_Grading repository.

The controller's persistent, logic-relevant mutable state is the single
global `char gradePython` (line 32); weights are modelled as rationals
(the sketch uses `float`, but every branch condition is an order
comparison against small integer constants, so `ℚ` is a faithful
carrier for the control flow).  Each call to `scale.get_units(5)` is one
weight observation; a cycle's observations are an index into a stream
`reads : ℕ → ℚ`.
-/

set_option autoImplicit false

namespace DragonFruit

/-- The grade source distinguished by the spec: a grade computed from the
local stabilized weight, or a grade received over MQTT from the remote
classifier. -/
inductive Source where
  | LOCAL_SENSOR
  | REMOTE_OVERRIDE
deriving DecidableEq, Repr

/-- A grade decision as described by the spec's data model: the grade
character passed to `eksekusiGrade`, the path that produced it, and the
stabilized weight for the local path (`none` on the override path, which
never reads the scale). -/
structure GradeDecision where
  grade : Char
  source : Source
  weight : Option ℚ
deriving DecidableEq, Repr

/-- The controller's persistent state: the global `char gradePython`
(line 32 of `esp32_iot.ino`), `0` meaning "no pending override". -/
structure IotState where
  gradePython : Char
deriving DecidableEq, Repr

/-- `gradePython`'s initial value `0` (line 32). -/
def initState : IotState := ⟨Char.ofNat 0⟩

/-- Observable serial-log events of the MQTT callback (lines 81-90):
the unconditional echo of every inbound message, and the acceptance
message printed when a valid grade is stored.  The callback prints
nothing else. -/
inductive LogEvent where
  | mqttInbound (topic msg : String)
  | gradeReceived (msg : String)
deriving DecidableEq, Repr

/-- The MQTT topic `iot/python/grade` carrying remote grades (line 87). -/
def gradeTopic : String := "iot/python/grade"

/-- The MQTT callback (lines 77-93): echo every message; on the grade
topic, store `msg[0]` into `gradePython` only when the payload is
exactly `"A"`, `"B"` or `"C"`; otherwise leave the state untouched. -/
def callback (st : IotState) (topic msg : String) : IotState × List LogEvent :=
  if topic = gradeTopic then
    if msg = "A" ∨ msg = "B" ∨ msg = "C" then
      (⟨msg.get ⟨0⟩⟩, [LogEvent.mqttInbound topic msg, LogEvent.gradeReceived msg])
    else
      (st, [LogEvent.mqttInbound topic msg])
  else
    (st, [LogEvent.mqttInbound topic msg])

/-- `client.loop()` (line 165): deliver the cycle's buffered inbound
messages to `callback` in order, accumulating the log. -/
def clientLoop (st : IotState) (inbound : List (String × String)) :
    IotState × List LogEvent :=
  inbound.foldl
    (fun acc m =>
      let r := callback acc.1 m.1 m.2
      (r.1, acc.2 ++ r.2))
    (st, [])

/-- Duration of `servoDorong` (lines 35-39): `delay(2000)` between the
two servo writes. -/
def servoDorongMs : ℕ := 2000

/-- `eksekusiGrade` (lines 42-74), abstracted to the length of the
blocking actuation sequence it performs: grade A runs `servoDorong`
then the motor for 4000 ms, B for 3000 ms, C for 1500 ms; any other
character matches no `case` and actuates nothing. -/
def eksekusiGrade (grade : Char) : ℕ :=
  if grade = 'A' then servoDorongMs + 4000
  else if grade = 'B' then servoDorongMs + 3000
  else if grade = 'C' then servoDorongMs + 1500
  else 0

/-- The near-zero coercion of line 185: `if (abs(weight) < 1) weight = 0;`. -/
def coerceSmall (w : ℚ) : ℚ := if |w| < 1 then 0 else w

/-- The local threshold table (lines 223-225):
`weight > 350 → 'A'`, `weight >= 250 → 'B'`, otherwise `'C'`. -/
def classify (weight : ℚ) : Char :=
  if weight > 350 then 'A'
  else if weight ≥ 250 then 'B'
  else 'C'

/-- Desirability rank of a grade character (spec §4.4: A > B > C). -/
def gradeRank (c : Char) : ℕ :=
  if c = 'A' then 2 else if c = 'B' then 1 else 0

/-- The stability loop of lines 206-213: starting at stream index `i`
with `fuel` iterations left, read `cek = reads i`; if `|cek - w| > 5`
stop with `stabil = false` (the `break`), else continue.  Returns the
flag and the index of the next unread observation. -/
def checkLoop (w : ℚ) (reads : ℕ → ℚ) (i : ℕ) : ℕ → Bool × ℕ
  | 0 => (true, i)
  | fuel + 1 =>
    if |reads i - w| > 5 then (false, i + 1)
    else checkLoop w reads (i + 1) fuel

/-- Everything one `loop()` iteration does that is visible to the rest
of the system: the new persistent state, the grade decision (if any),
the weight and grade published on MQTT, how many scale observations the
cycle consumed, the grade actuated (if any) with the blocking duration,
and the serial-log events of the inbound handler. -/
structure CycleOutput where
  state : IotState
  decision : Option GradeDecision
  publishedWeight : Option ℚ
  publishedGrade : Option Char
  scaleReads : ℕ
  actuated : Option Char
  blockedMs : ℕ
  log : List LogEvent
deriving DecidableEq, Repr

/-- One iteration of `loop()` (lines 159-235).  `inbound` are the MQTT
messages `client.loop()` delivers this cycle, `ready` is
`scale.is_ready()`, and `reads i` is the result of the `(i+1)`-th
`scale.get_units(5)` call of this cycle.  Mirrors the source line by
line: deliver messages; if `gradePython` is non-zero consume it and
actuate (lines 167-173); else if the scale is not ready skip (179-182);
else read the weight, coerce near-zero values, print and publish it
(184-194); below the 100 g presence floor skip (197-201); run the
stability loop (203-218); on stability classify, publish the grade and
actuate (220-232). -/
def loop (st : IotState) (inbound : List (String × String)) (ready : Bool)
    (reads : ℕ → ℚ) : CycleOutput :=
  let pr := clientLoop st inbound
  let st1 := pr.1
  if st1.gradePython ≠ Char.ofNat 0 then
    let g := st1.gradePython
    { state := ⟨Char.ofNat 0⟩
      decision := some ⟨g, Source.REMOTE_OVERRIDE, none⟩
      publishedWeight := none
      publishedGrade := none
      scaleReads := 0
      actuated := some g
      blockedMs := eksekusiGrade g
      log := pr.2 }
  else if ¬ ready then
    { state := st1, decision := none, publishedWeight := none
      publishedGrade := none, scaleReads := 0, actuated := none
      blockedMs := 0, log := pr.2 }
  else
    let weight := coerceSmall (reads 0)
    if weight < 100 then
      { state := st1, decision := none, publishedWeight := some weight
        publishedGrade := none, scaleReads := 1, actuated := none
        blockedMs := 0, log := pr.2 }
    else
      let chk := checkLoop weight reads 1 10
      if ¬ chk.1 then
        { state := st1, decision := none, publishedWeight := some weight
          publishedGrade := none, scaleReads := chk.2, actuated := none
          blockedMs := 0, log := pr.2 }
      else
        let grade := classify weight
        { state := st1
          decision := some ⟨grade, Source.LOCAL_SENSOR, some weight⟩
          publishedWeight := some weight
          publishedGrade := some grade
          scaleReads := 11
          actuated := some grade
          blockedMs := eksekusiGrade grade
          log := pr.2 }

/-- The per-cycle inputs of a multi-cycle run: the inbound messages
delivered by `client.loop()` and the scale-readiness flag. -/
structure LoopStep where
  inbound : List (String × String)
  ready : Bool

/-- Run several `loop()` iterations against one global observation
stream: each cycle sees the stream from the current cursor `p` and
advances the cursor by the observations it consumed.  Returns the
decisions of each cycle, the final state and the final cursor. -/
def runLoop (stream : ℕ → ℚ) :
    IotState → ℕ → List LoopStep → List (Option GradeDecision) × IotState × ℕ
  | st, p, [] => ([], st, p)
  | st, p, step :: rest =>
    let out := loop st step.inbound step.ready (fun i => stream (p + i))
    let r := runLoop stream out.state (p + out.scaleReads) rest
    (out.decision :: r.1, r.2)

/-- An atomic controller step for reachability: either the MQTT
callback fires with a message, or one `loop()` iteration runs with its
cycle inputs. -/
inductive Event where
  | msg (topic payload : String)
  | cycle (inbound : List (String × String)) (ready : Bool) (reads : ℕ → ℚ)

/-- State transition of one `Event`. -/
def applyEvent (st : IotState) : Event → IotState
  | .msg t p => (callback st t p).1
  | .cycle inbound ready reads => (loop st inbound ready reads).state

/-- The state reached from `st` after a sequence of events. -/
def runEvents (st : IotState) (evs : List Event) : IotState :=
  evs.foldl applyEvent st

/-- The invariant claimed for `gradePython`: it is `0` (empty) or one
of the grade characters. -/
def validGradeB (c : Char) : Bool :=
  c = Char.ofNat 0 || c = 'A' || c = 'B' || c = 'C'

/-- `true` iff no message of the list is an accepted override for the
grade topic (payload `"A"`, `"B"` or `"C"`). -/
def noValidOverrideB (inbound : List (String × String)) : Bool :=
  inbound.all fun p => !(p.1 = gradeTopic && (p.2 = "A" || p.2 = "B" || p.2 = "C"))

/-- `true` iff the cycle produced no decision or a `LOCAL_SENSOR` one. -/
def localDecisionB (d : Option GradeDecision) : Bool :=
  d.elim true fun gd => gd.source = Source.LOCAL_SENSOR

/-- `true` iff every produced decision of the list has source
`LOCAL_SENSOR`. -/
def allLocalDecisions (ds : List (Option GradeDecision)) : Bool :=
  ds.all localDecisionB

/-- Stability-detector states named by the spec §4.2. -/
inductive DetState where
  | EMPTY
  | ACCUMULATING
  | STABLE
deriving DecidableEq, Repr

/-- Follows the spec's words (§4.2), for comparison with the code's
stability check: keep a window of the last `K` samples; below the
presence `floor` clear it and report `EMPTY`; with fewer than `K`
samples report `ACCUMULATING`; if every sample is within `tol` of the
window's first sample report `STABLE`; otherwise drop only the oldest
sample and report `ACCUMULATING`. -/
def specObserve (K : ℕ) (tol floor : ℚ) (win : List ℚ) (s : ℚ) :
    List ℚ × DetState :=
  if s < floor then ([], DetState.EMPTY)
  else
    let win1 := win ++ [s]
    if win1.length < K then (win1, DetState.ACCUMULATING)
    else if win1.all (fun x => |x - win1.headD 0| ≤ tol) then
      (win1, DetState.STABLE)
    else (win1.tail, DetState.ACCUMULATING)

/-- Iterate the spec's detector over the first `n` samples of a stream,
starting from an empty window. -/
def specRun (K : ℕ) (tol floor : ℚ) (stream : ℕ → ℚ) : ℕ → List ℚ × DetState
  | 0 => ([], DetState.ACCUMULATING)
  | n + 1 => specObserve K tol floor (specRun K tol floor stream n).1 (stream n)

/-! ### Helper lemmas -/

/-- Weights at or above the presence floor are unaffected by the
near-zero coercion of line 185. -/
theorem coerceSmall_large {w : ℚ} (h : 100 ≤ w) : coerceSmall w = w := by
  unfold coerceSmall
  rw [if_neg]
  rw [abs_of_nonneg (by linarith)]
  intro hlt
  linarith

/-- The stability loop succeeds and consumes all its fuel when every
inspected observation is within tolerance of the reference. -/
theorem checkLoop_all_within (w : ℚ) (reads : ℕ → ℚ) :
    ∀ fuel i, (∀ k, i ≤ k → k < i + fuel → |reads k - w| ≤ 5) →
      checkLoop w reads i fuel = (true, i + fuel) := by
  intro fuel
  induction fuel with
  | zero => intro i _; rfl
  | succ n ih =>
    intro i h
    unfold checkLoop
    rw [if_neg]
    · have := ih (i + 1) (fun k hk1 hk2 => h k (by omega) (by omega))
      rw [this]
      congr 1
      omega
    · push_neg
      exact h i (le_refl i) (by omega)

/-- The stability loop fails (the `break` of line 210) when some
inspected observation deviates from the reference by more than the
tolerance. -/
theorem checkLoop_deviation (w : ℚ) (reads : ℕ → ℚ) :
    ∀ fuel i k, i ≤ k → k < i + fuel → 5 < |reads k - w| →
      (checkLoop w reads i fuel).1 = false := by
  intro fuel
  induction fuel with
  | zero => intro i k h1 h2 _; omega
  | succ n ih =>
    intro i k h1 h2 hdev
    unfold checkLoop
    by_cases hi : |reads i - w| > 5
    · rw [if_pos hi]
    · rw [if_neg hi]
      have hk : i + 1 ≤ k := by
        rcases Nat.eq_or_lt_of_le h1 with rfl | h
        · exact absurd hdev hi
        · omega
      exact ih (i + 1) k hk (by omega) hdev

/-- `client.loop()` with no buffered message leaves everything as is. -/
theorem clientLoop_nil (st : IotState) : clientLoop st [] = (st, []) := rfl

/-- A single inbound message is handed to `callback` with an empty
accumulated log. -/
theorem clientLoop_single (st : IotState) (t m : String) :
    clientLoop st [(t, m)] = ((callback st t m).1, (callback st t m).2) := by
  simp [clientLoop]

/-- The callback never stores the empty character: it writes only the
first character of `"A"`, `"B"` or `"C"`. -/
theorem callback_ne_zero (st : IotState) (t m : String)
    (h : st.gradePython ≠ Char.ofNat 0) :
    (callback st t m).1.gradePython ≠ Char.ofNat 0 := by
  unfold callback
  split_ifs with h1 h2
  · rcases h2 with rfl | rfl | rfl
    · change "A".get ⟨0⟩ ≠ Char.ofNat 0
      decide
    · change "B".get ⟨0⟩ ≠ Char.ofNat 0
      decide
    · change "C".get ⟨0⟩ ≠ Char.ofNat 0
      decide
  · exact h
  · exact h

/-- The callback preserves the claimed range of `gradePython`. -/
theorem callback_validGrade (st : IotState) (t m : String)
    (h : validGradeB st.gradePython = true) :
    validGradeB (callback st t m).1.gradePython = true := by
  unfold callback
  split_ifs with h1 h2
  · rcases h2 with rfl | rfl | rfl
    · change validGradeB ("A".get ⟨0⟩) = true
      decide
    · change validGradeB ("B".get ⟨0⟩) = true
      decide
    · change validGradeB ("C".get ⟨0⟩) = true
      decide
  · exact h
  · exact h

/-- A message that is not an accepted override leaves the state
untouched. -/
theorem callback_no_override (st : IotState) (t m : String)
    (h : ¬(t = gradeTopic ∧ (m = "A" ∨ m = "B" ∨ m = "C"))) :
    (callback st t m).1 = st := by
  unfold callback
  split_ifs with h1 h2
  · exact absurd ⟨h1, h2⟩ h
  · rfl
  · rfl

/-- Message delivery preserves any property of `gradePython` preserved
by the callback. -/
theorem clientLoop_preserve (P : Char → Prop)
    (hP : ∀ st t m, P st.gradePython → P (callback st t m).1.gradePython) :
    ∀ (inbound : List (String × String)) (st : IotState),
      P st.gradePython → P (clientLoop st inbound).1.gradePython := by
  have main : ∀ (inbound : List (String × String)) (acc : IotState × List LogEvent),
      P acc.1.gradePython →
      P (inbound.foldl
          (fun acc m =>
            let r := callback acc.1 m.1 m.2
            (r.1, acc.2 ++ r.2)) acc).1.gradePython := by
    intro inbound
    induction inbound with
    | nil => intro acc h; exact h
    | cons hd tl ih =>
      intro acc h
      exact ih _ (hP acc.1 hd.1 hd.2 h)
  intro inbound st h
  exact main inbound (st, []) h

/-- If no buffered message is an accepted override, delivery leaves the
state untouched. -/
theorem clientLoop_no_override (inbound : List (String × String))
    (h : noValidOverrideB inbound = true) :
    ∀ st : IotState, (clientLoop st inbound).1 = st := by
  have main : ∀ (l : List (String × String)), noValidOverrideB l = true →
      ∀ (acc : IotState × List LogEvent),
      (l.foldl
        (fun acc m =>
          let r := callback acc.1 m.1 m.2
          (r.1, acc.2 ++ r.2)) acc).1 = acc.1 := by
    intro l
    induction l with
    | nil => intro _ acc; rfl
    | cons hd tl ih =>
      intro hl acc
      simp only [noValidOverrideB, List.all_cons, Bool.and_eq_true] at hl
      have hp : ¬(hd.1 = gradeTopic ∧ (hd.2 = "A" ∨ hd.2 = "B" ∨ hd.2 = "C")) := by
        intro hc
        have hb := hl.1
        rw [hc.1] at hb
        rcases hc.2 with h2 | h2 | h2 <;> rw [h2] at hb <;> simp at hb
      have h1 : (callback acc.1 hd.1 hd.2).1 = acc.1 :=
        callback_no_override acc.1 hd.1 hd.2 hp
      simp only [List.foldl]
      rw [ih (by simpa [noValidOverrideB] using hl.2)]
      simp [h1]
  intro st
  exact main inbound h (st, [])

/-- The fully evaluated output of a cycle whose pending override is
empty, whose scale is ready and whose 11 observations all lie within
the 5 g tolerance of the first: the local path classifies the
reference weight, publishes it with the grade, and actuates. -/
theorem loop_stable (st : IotState) (reads : ℕ → ℚ)
    (hst : st.gradePython = Char.ofNat 0) (h0 : 100 ≤ reads 0)
    (hin : ∀ i, i ≤ 10 → |reads i - reads 0| ≤ 5) :
    loop st [] true reads =
      { state := st
        decision := some ⟨classify (reads 0), Source.LOCAL_SENSOR, some (reads 0)⟩
        publishedWeight := some (reads 0)
        publishedGrade := some (classify (reads 0))
        scaleReads := 11
        actuated := some (classify (reads 0))
        blockedMs := eksekusiGrade (classify (reads 0))
        log := [] } := by
  have hchk : checkLoop (reads 0) reads 1 10 = (true, 11) :=
    checkLoop_all_within (reads 0) reads 10 1
      (fun k hk1 hk2 => hin k (by omega))
  simp only [loop, clientLoop_nil, hst]
  rw [if_neg (by simp), if_neg (by simp), coerceSmall_large h0,
    if_neg (by push_neg; linarith)]
  rw [hchk]
  simp [hst]

/-- The fully evaluated output of a cycle whose pending override is
empty, whose scale is ready, whose reference weight passes the presence
floor, but one of whose 10 stability observations deviates by more than
the tolerance: the cycle publishes the weight, emits no decision, and
carries nothing forward except the unchanged persistent state. -/
theorem loop_unstable (st : IotState) (reads : ℕ → ℚ) (j : ℕ)
    (hst : st.gradePython = Char.ofNat 0) (h0 : 100 ≤ reads 0)
    (hj1 : 1 ≤ j) (hj2 : j ≤ 10) (hdev : 5 < |reads j - reads 0|) :
    loop st [] true reads =
      { state := st
        decision := none
        publishedWeight := some (reads 0)
        publishedGrade := none
        scaleReads := (checkLoop (reads 0) reads 1 10).2
        actuated := none
        blockedMs := 0
        log := [] } := by
  have hchk : (checkLoop (reads 0) reads 1 10).1 = false :=
    checkLoop_deviation (reads 0) reads 10 1 j hj1 (by omega) hdev
  simp only [loop, clientLoop_nil, hst]
  rw [if_neg (by simp), if_neg (by simp), coerceSmall_large h0,
    if_neg (by push_neg; linarith)]
  rw [if_pos (by simp [hchk])]

/-- A cycle's resulting persistent state is either the cleared slot
(override consumed) or exactly the post-delivery state. -/
theorem loop_state_cases (st : IotState) (inbound : List (String × String))
    (ready : Bool) (reads : ℕ → ℚ) :
    (loop st inbound ready reads).state = ⟨Char.ofNat 0⟩ ∨
      (loop st inbound ready reads).state = (clientLoop st inbound).1 := by
  simp only [loop]
  split_ifs <;> simp

/-- A cycle that starts with an empty override slot and receives no
valid override message keeps its state and can only produce a
`LOCAL_SENSOR` decision. -/
theorem loop_no_override_cycle (st : IotState)
    (inbound : List (String × String)) (ready : Bool) (reads : ℕ → ℚ)
    (hst : st.gradePython = Char.ofNat 0)
    (hin : noValidOverrideB inbound = true) :
    (loop st inbound ready reads).state = st ∧
      localDecisionB (loop st inbound ready reads).decision = true := by
  have h1 : (clientLoop st inbound).1 = st := clientLoop_no_override inbound hin st
  simp only [loop, h1, hst]
  rw [if_neg (by simp)]
  split_ifs <;> simp [localDecisionB]

/-! ### Claim theorems -/

/-- C1: if `PendingOverride` (`gradePython`) holds a grade at the start
of a cycle (and no further message arrives that cycle), the cycle's
decision is that grade with source `REMOTE_OVERRIDE`, and the scale and
stability detector are not consulted at all (`scaleReads = 0`), whatever
stable weight the stream would have offered. -/
theorem override_precedence (st : IotState) (ready : Bool) (reads : ℕ → ℚ)
    (h : st.gradePython ≠ Char.ofNat 0) :
    (loop st [] ready reads).decision
        = some ⟨st.gradePython, Source.REMOTE_OVERRIDE, none⟩ ∧
      (loop st [] ready reads).scaleReads = 0 ∧
      (loop st [] ready reads).publishedWeight = none := by
  simp only [loop, clientLoop_nil]
  rw [if_pos (by simpa using h)]
  exact ⟨rfl, rfl, rfl⟩

/-- Witness for C1: override `'B'` pending while a stable 600 g weight
is available: the decision is `{B, REMOTE_OVERRIDE}` and the scale is
never read. -/
theorem override_precedence_witness :
    (loop ⟨'B'⟩ [] true (fun _ => 600)).decision
        = some ⟨'B', Source.REMOTE_OVERRIDE, none⟩ ∧
      (loop ⟨'B'⟩ [] true (fun _ => 600)).scaleReads = 0 ∧
      (loop ⟨'B'⟩ [] true (fun _ => 600)).publishedWeight = none :=
  override_precedence ⟨'B'⟩ true (fun _ => 600) (by decide)

/-- Counterexample to C2 as stated: the claim assigns grade A to every
stabilized weight `w ≥ T_A = 350`, but at exactly 350 the code's strict
comparison `weight > 350` (line 223) falls through to grade B: a full
cycle at a rock-stable 350 g yields `{B, LOCAL_SENSOR, 350}`, not A. -/
theorem threshold_boundary_cex :
    (loop initState [] true (fun _ => 350)).decision
        = some ⟨'B', Source.LOCAL_SENSOR, some 350⟩ ∧
      classify 350 ≠ 'A' := by
  constructor
  · norm_num [loop, clientLoop, coerceSmall, checkLoop, classify, initState]
  · decide

/-- C2 (amended): grade A is assigned for `w > 350` (strictly), B for
`250 ≤ w ≤ 350`, C for `w < 250`; the claimed scenarios hold: a
stabilized 400 g yields `{A, LOCAL_SENSOR, 400}` and a stabilized
280 g with no override pending yields `{B, LOCAL_SENSOR, 280}`. -/
theorem local_threshold_table :
    (∀ w : ℚ,
        (350 < w → classify w = 'A') ∧
        (250 ≤ w → w ≤ 350 → classify w = 'B') ∧
        (w < 250 → classify w = 'C')) ∧
      (loop initState [] true (fun _ => 400)).decision
        = some ⟨'A', Source.LOCAL_SENSOR, some 400⟩ ∧
      (loop initState [] true (fun _ => 280)).decision
        = some ⟨'B', Source.LOCAL_SENSOR, some 280⟩ := by
  refine ⟨fun w => ⟨fun h1 => ?_, fun h2 h3 => ?_, fun h4 => ?_⟩, ?_, ?_⟩
  · unfold classify
    rw [if_pos h1]
  · unfold classify
    rw [if_neg (by linarith), if_pos h2]
  · unfold classify
    rw [if_neg (by linarith), if_neg (by linarith)]
  · norm_num [loop, clientLoop, coerceSmall, checkLoop, classify, initState]
  · norm_num [loop, clientLoop, coerceSmall, checkLoop, classify, initState]

/-- Witness for C2 (amended): the threshold table evaluated at 400,
300 and 200 grams. -/
theorem local_threshold_table_witness :
    classify 400 = 'A' ∧ classify 300 = 'B' ∧ classify 200 = 'C' :=
  ⟨(local_threshold_table.1 400).1 (by norm_num),
   (local_threshold_table.1 300).2.1 (by norm_num) (by norm_num),
   (local_threshold_table.1 200).2.2 (by norm_num)⟩

/-- C3: classification is monotone in the weight: raising the weight
never lowers the desirability rank (A > B > C) of the assigned grade,
for the fixed table of lines 223-225. -/
theorem classify_monotone (w1 w2 : ℚ) (h : w1 < w2) :
    gradeRank (classify w1) ≤ gradeRank (classify w2) := by
  unfold classify gradeRank
  split_ifs <;> first
    | rfl
    | omega
    | (exfalso; first | linarith | simp_all)

/-- Witness for C3: 200 < 400, and grade C's rank is at most grade A's. -/
theorem classify_monotone_witness :
    gradeRank (classify 200) ≤ gradeRank (classify 400) :=
  classify_monotone 200 400 (by norm_num)

/-- C10: every weight the cycle publishes on `iot/machine/weight` (and
prints over serial — line 185 coerces the shared variable before both)
is either exactly 0 or at least 1 g in magnitude: no nonzero value in
the open interval (−1, 1) is ever published. -/
theorem published_weight_coerced (st : IotState)
    (inbound : List (String × String)) (ready : Bool) (reads : ℕ → ℚ)
    (w : ℚ) (h : (loop st inbound ready reads).publishedWeight = some w) :
    w = 0 ∨ 1 ≤ |w| := by
  have key : ∀ x : ℚ, coerceSmall x = 0 ∨ 1 ≤ |coerceSmall x| := by
    intro x
    unfold coerceSmall
    split_ifs with habs
    · exact Or.inl rfl
    · exact Or.inr (not_lt.mp habs)
  simp only [loop] at h
  split_ifs at h
  all_goals simp at h
  all_goals exact h ▸ key (reads 0)

/-- Counterexample to C4 as stated: the claim says that when the
stability window holds K samples whose maximum deviation from the
first exceeds the 5 g tolerance, only the oldest sample is dropped and
the remaining K−1 are retained for the next observation
(sliding-window retry).  On the stream 300,300,…,300,200,200,… (ten
300 g readings then 200 g forever) the code's first cycle sees a full
window of 11 samples whose last deviates by 100 g; the sliding
semantics of the claim (`specRun`, K = 11) therefore retains the ten
most recent samples and reaches `STABLE` at observation 21.  The code
instead discards the whole window: its first cycle ends with no
decision and an unchanged persistent state, and its retry needs 11
entirely fresh observations, deciding only at observation 22. -/
theorem unstable_sliding_window_cex :
    (specRun 11 5 100 (fun i => if i ≤ 9 then (300 : ℚ) else 200) 21).2
        = DetState.STABLE ∧
      (specRun 11 5 100 (fun i => if i ≤ 9 then (300 : ℚ) else 200) 20).2
        = DetState.ACCUMULATING ∧
      loop initState [] true (fun i => if i ≤ 9 then (300 : ℚ) else 200)
        = { state := initState, decision := none, publishedWeight := some 300
            publishedGrade := none, scaleReads := 11, actuated := none
            blockedMs := 0, log := [] } ∧
      runLoop (fun i => if i ≤ 9 then (300 : ℚ) else 200) initState 0
          [⟨[], true⟩, ⟨[], true⟩]
        = ([none, some ⟨'C', Source.LOCAL_SENSOR, some 200⟩], initState, 22) := by
  refine ⟨?_, ?_, ?_, ?_⟩
  · norm_num [specRun, specObserve]
  · norm_num [specRun, specObserve]
  · norm_num [loop, clientLoop, coerceSmall, checkLoop, classify, initState]
  · norm_num [runLoop, loop, clientLoop, coerceSmall, checkLoop, classify, initState]

/-- C4 (amended): when a stability observation deviates from the
cycle's reference weight by more than the 5 g tolerance, the code
discards the entire window, not just the oldest sample: the cycle ends
with no decision and the persistent state unchanged (no sample is
retained anywhere), and the next cycle re-runs the check on a fully
fresh window — any fresh 11 within-tolerance readings immediately
yield a STABLE local decision, independent of the discarded cycle. -/
theorem unstable_discards_whole_window (st : IotState) (reads : ℕ → ℚ)
    (j : ℕ) (hst : st.gradePython = Char.ofNat 0) (h0 : 100 ≤ reads 0)
    (hj1 : 1 ≤ j) (hj2 : j ≤ 10) (hdev : 5 < |reads j - reads 0|) :
    (loop st [] true reads).decision = none ∧
      (loop st [] true reads).state = st ∧
      ∀ reads2 : ℕ → ℚ, 100 ≤ reads2 0 →
        (∀ i, i ≤ 10 → |reads2 i - reads2 0| ≤ 5) →
        (loop (loop st [] true reads).state [] true reads2).decision
          = some ⟨classify (reads2 0), Source.LOCAL_SENSOR, some (reads2 0)⟩ := by
  rw [loop_unstable st reads j hst h0 hj1 hj2 hdev]
  refine ⟨rfl, rfl, fun reads2 h20 h2in => ?_⟩
  rw [loop_stable st reads2 hst h20 h2in]

/-- Witness for C4 (amended): reference 300 g, fourth observation
400 g: the cycle yields nothing and keeps the state empty; a fresh
all-280 g cycle then decides `{B, LOCAL_SENSOR, 280}`. -/
theorem unstable_discards_whole_window_witness :
    (loop initState [] true
        (fun i => if i = 4 then (400 : ℚ) else 300)).decision = none ∧
      (loop initState [] true
        (fun i => if i = 4 then (400 : ℚ) else 300)).state = initState ∧
      (loop (loop initState [] true
          (fun i => if i = 4 then (400 : ℚ) else 300)).state [] true
          (fun _ => 280)).decision
        = some ⟨classify 280, Source.LOCAL_SENSOR, some 280⟩ := by
  have h := unstable_discards_whole_window initState
    (fun i => if i = 4 then (400 : ℚ) else 300) 4 rfl (by norm_num)
    (by norm_num) (by norm_num) (by norm_num)
  exact ⟨h.1, h.2.1, h.2.2 (fun _ => 280) (by norm_num) (by norm_num)⟩

/-- Counterexample to C5 as stated: the claim promises `STABLE` within
exactly K observations of entering a within-tolerance run.  On the
stream 200,300,300,… the run of mutually-within-5 g samples starts at
observation 1 (0-indexed).  The first cycle takes 200 g as its
reference, sees 300 g deviate, and aborts after consuming 2
observations; the second cycle needs 11 fresh observations and decides
only after global observation 12 — the 12th observation of the run,
one more than the K = 11 the claim allows; after one full cycle (claim:
already past entry) there is still no decision. -/
theorem stability_exact_k_cex :
    runLoop (fun i => if i = 0 then (200 : ℚ) else 300) initState 0
        [⟨[], true⟩]
      = ([none], initState, 2) ∧
    runLoop (fun i => if i = 0 then (200 : ℚ) else 300) initState 0
        [⟨[], true⟩, ⟨[], true⟩]
      = ([none, some ⟨'B', Source.LOCAL_SENSOR, some 300⟩], initState, 13) := by
  constructor
  · norm_num [runLoop, loop, clientLoop, coerceSmall, checkLoop, classify, initState]
  · norm_num [runLoop, loop, clientLoop, coerceSmall, checkLoop, classify, initState]

/-- C5 (amended): when a within-tolerance run is aligned with a cycle —
the cycle's reference read is the first sample of the run and every one
of the cycle's 11 observations lies within 5 g of every other — the
detector declares stability in that very cycle, after exactly K = 11
observations (one reference plus ten checks), and the cycle emits the
local grade decision for the reference weight. -/
theorem stability_convergence_aligned (st : IotState) (reads : ℕ → ℚ)
    (hst : st.gradePython = Char.ofNat 0) (h0 : 100 ≤ reads 0)
    (hpair : ∀ i j, i ≤ 10 → j ≤ 10 → |reads i - reads j| ≤ 5) :
    (loop st [] true reads).decision
        = some ⟨classify (reads 0), Source.LOCAL_SENSOR, some (reads 0)⟩ ∧
      (loop st [] true reads).scaleReads = 11 := by
  rw [loop_stable st reads hst h0 (fun i hi => hpair i 0 hi (by omega))]
  exact ⟨rfl, rfl⟩

/-- Witness for C5 (amended): eleven 400 g observations yield
`{A, LOCAL_SENSOR, 400}` after exactly 11 observations. -/
theorem stability_convergence_aligned_witness :
    (loop initState [] true (fun _ => 400)).decision
        = some ⟨classify 400, Source.LOCAL_SENSOR, some 400⟩ ∧
      (loop initState [] true (fun _ => 400)).scaleReads = 11 :=
  stability_convergence_aligned initState (fun _ => 400) rfl (by norm_num)
    (fun _ _ _ _ => by norm_num)

/-- Witness for C10: a 0.5 g reading (inside (−1, 1)) is published as
exactly 0. -/
theorem published_weight_coerced_witness :
    ((0 : ℚ) = 0 ∨ 1 ≤ |(0 : ℚ)|) ∧
      (loop initState [] true (fun _ => (1 : ℚ)/2)).publishedWeight = some 0 :=
  ⟨published_weight_coerced initState [] true (fun _ => (1 : ℚ)/2) 0
      (by norm_num [loop, clientLoop, coerceSmall, initState, abs_of_nonneg]),
   by norm_num [loop, clientLoop, coerceSmall, initState, abs_of_nonneg]⟩

/-- Counterexample to C6 as stated: the claim says every
decision-yielding cycle publishes exactly one grade decision via the
Telemetry Publisher.  A cycle consuming the pending override `'B'`
yields a decision and actuates, but publishes nothing at all — neither
a grade nor a weight ever reaches MQTT on the override path (lines
167-173 contain no `client.publish`). -/
theorem override_publish_cex :
    (loop ⟨'B'⟩ [] true (fun _ => 600)).decision
        = some ⟨'B', Source.REMOTE_OVERRIDE, none⟩ ∧
      (loop ⟨'B'⟩ [] true (fun _ => 600)).publishedGrade = none ∧
      (loop ⟨'B'⟩ [] true (fun _ => 600)).publishedWeight = none := by
  simp only [loop, clientLoop_nil]
  rw [if_pos (by decide)]
  exact ⟨rfl, rfl, rfl⟩

/-- C6 (amended): every cycle yields at most one decision; a yielded
decision is consumed by the actuation sequencer exactly once, blocking
the cycle for its grade's sequence duration; a `LOCAL_SENSOR` decision
is additionally published once on the grade topic, while a
`REMOTE_OVERRIDE` decision is actuated without being published. -/
theorem decision_actuated_once (st : IotState)
    (inbound : List (String × String)) (ready : Bool) (reads : ℕ → ℚ)
    (d : GradeDecision)
    (h : (loop st inbound ready reads).decision = some d) :
    (loop st inbound ready reads).actuated = some d.grade ∧
      (loop st inbound ready reads).blockedMs = eksekusiGrade d.grade ∧
      (d.source = Source.LOCAL_SENSOR →
        (loop st inbound ready reads).publishedGrade = some d.grade) ∧
      (d.source = Source.REMOTE_OVERRIDE →
        (loop st inbound ready reads).publishedGrade = none) := by
  simp only [loop] at h ⊢
  split_ifs at h ⊢ <;> simp_all <;> simp [← h]

/-- Witness for C6 (amended): the override cycle of grade `'B'`
actuates `'B'`, blocks 5000 ms, and publishes no grade. -/
theorem decision_actuated_once_witness :
    (loop ⟨'B'⟩ [] true (fun _ => 600)).actuated = some 'B' ∧
      (loop ⟨'B'⟩ [] true (fun _ => 600)).blockedMs = 5000 ∧
      (loop ⟨'B'⟩ [] true (fun _ => 600)).publishedGrade = none := by
  have h := decision_actuated_once ⟨'B'⟩ [] true (fun _ => 600)
    ⟨'B', Source.REMOTE_OVERRIDE, none⟩
    (by simp only [loop, clientLoop_nil]; rw [if_pos (by decide)])
  exact ⟨h.1, h.2.1.trans (by decide), h.2.2.2 rfl⟩

/-- Counterexample to C7 as stated: on the malformed override payload
`"X"` the claim says an `UnknownGradeError` is logged.  The handler's
entire observable output is the unconditional inbound echo printed for
every message (lines 81-84); no error record of any kind is produced —
the `LogEvent` type embedded from the handler has no error constructor
because the code has no such logging path (lines 87-92 silently fall
through). -/
theorem unknown_grade_log_cex :
    callback initState gradeTopic "X"
        = (initState, [LogEvent.mqttInbound gradeTopic "X"]) ∧
      (callback initState gradeTopic "X").2.length = 1 := by
  have hx : callback initState gradeTopic "X"
      = (initState, [LogEvent.mqttInbound gradeTopic "X"]) := by
    unfold callback
    rw [if_pos rfl, if_neg (by decide)]
  refine ⟨hx, ?_⟩
  rw [hx]
  rfl

/-- C7 (amended): a payload other than `"A"`, `"B"`, `"C"` on the
grade-override topic is silently ignored: the handler emits only the
generic inbound echo, leaves `PendingOverride` unchanged, the
controller does not crash (the handler is total), and the local path
proceeds unaffected — e.g. a subsequent stable 400 g cycle still
decides `{A, LOCAL_SENSOR, 400}` with the malformed message delivered
that very cycle. -/
theorem invalid_payload_ignored (st : IotState) (msg : String)
    (h : ¬(msg = "A" ∨ msg = "B" ∨ msg = "C")) :
    callback st gradeTopic msg
        = (st, [LogEvent.mqttInbound gradeTopic msg]) ∧
      (clientLoop st [(gradeTopic, msg)]).1 = st ∧
      (loop initState [(gradeTopic, msg)] true (fun _ => 400)).decision
        = some ⟨'A', Source.LOCAL_SENSOR, some 400⟩ := by
  have hcb : ∀ s : IotState, callback s gradeTopic msg
      = (s, [LogEvent.mqttInbound gradeTopic msg]) := by
    intro s
    unfold callback
    rw [if_pos rfl, if_neg h]
  refine ⟨hcb st, ?_, ?_⟩
  · rw [clientLoop_single, hcb st]
  · have h1 : clientLoop initState [(gradeTopic, msg)]
        = (initState, [LogEvent.mqttInbound gradeTopic msg]) := by
      rw [clientLoop_single, hcb initState]
    simp only [loop, h1]
    norm_num [coerceSmall, checkLoop, classify, initState]

/-- Witness for C7 (amended): payload `"X"`. -/
theorem invalid_payload_ignored_witness :
    callback initState gradeTopic "X"
        = (initState, [LogEvent.mqttInbound gradeTopic "X"]) ∧
      (clientLoop initState [(gradeTopic, "X")]).1 = initState ∧
      (loop initState [(gradeTopic, "X")] true (fun _ => 400)).decision
        = some ⟨'A', Source.LOCAL_SENSOR, some 400⟩ :=
  invalid_payload_ignored initState "X" (by decide)

/-- C8: the override is one-shot.  Consuming a pending override clears
the slot to `0`; and from an empty slot, any run of cycles none of
whose inbound messages is an accepted override (`"A"`/`"B"`/`"C"` on
the grade topic) produces only `LOCAL_SENSOR` decisions — a
`REMOTE_OVERRIDE` decision can never be re-emitted without a new
inbound message, because only the handler writes the slot. -/
theorem one_shot_override :
    (∀ (st : IotState) (ready : Bool) (reads : ℕ → ℚ),
        st.gradePython ≠ Char.ofNat 0 →
        (loop st [] ready reads).state = ⟨Char.ofNat 0⟩) ∧
      (∀ (stream : ℕ → ℚ) (st : IotState) (p : ℕ) (steps : List LoopStep),
        st.gradePython = Char.ofNat 0 →
        (∀ s ∈ steps, noValidOverrideB s.inbound = true) →
        allLocalDecisions (runLoop stream st p steps).1 = true) := by
  constructor
  · intro st ready reads h
    simp only [loop, clientLoop_nil]
    rw [if_pos (by simpa using h)]
  · intro stream st p steps
    induction steps generalizing st p with
    | nil => intro _ _; rfl
    | cons s rest ih =>
      intro hst hall
      have hc := loop_no_override_cycle st s.inbound s.ready
        (fun i => stream (p + i)) hst (hall s (by simp))
      simp only [runLoop, allLocalDecisions, List.all_cons, Bool.and_eq_true]
      refine ⟨hc.1 ▸ hc.2, ?_⟩
      have hst2 : (loop st s.inbound s.ready
          fun i => stream (p + i)).state.gradePython = Char.ofNat 0 := by
        rw [hc.1, hst]
      exact ih _ _ hst2 (fun x hx => hall x (List.mem_cons_of_mem _ hx))

/-- Witness for C8: consuming override `'A'` clears the slot; a
subsequent override-free stable cycle decides locally only. -/
theorem one_shot_override_witness :
    (loop ⟨'A'⟩ [] true (fun _ => 0)).state = ⟨Char.ofNat 0⟩ ∧
      allLocalDecisions
        (runLoop (fun _ => 300) initState 0 [⟨[], true⟩]).1 = true :=
  ⟨one_shot_override.1 ⟨'A'⟩ true (fun _ => 0) (by decide),
   one_shot_override.2 (fun _ => 300) initState 0 [⟨[], true⟩] rfl
     (by intro s hs; simp at hs; rw [hs]; rfl)⟩

/-- C9: at every reachable state the `gradePython` slot holds `0` or
one of `'A'`, `'B'`, `'C'` — the handler stores a payload only after
checking it is exactly `"A"`, `"B"` or `"C"`, and the cycle only ever
resets the slot to `0`; consequently, whenever the override path runs,
the grade handed to the actuation sequencer is one of `'A'`, `'B'`,
`'C'`. -/
theorem gradePython_invariant :
    (∀ evs : List Event,
        validGradeB (runEvents initState evs).gradePython = true) ∧
      (∀ (st : IotState) (inbound : List (String × String)) (ready : Bool)
          (reads : ℕ → ℚ),
        validGradeB st.gradePython = true →
        (clientLoop st inbound).1.gradePython ≠ Char.ofNat 0 →
        (loop st inbound ready reads).actuated
            = some (clientLoop st inbound).1.gradePython ∧
          ((clientLoop st inbound).1.gradePython = 'A' ∨
            (clientLoop st inbound).1.gradePython = 'B' ∨
            (clientLoop st inbound).1.gradePython = 'C')) := by
  have hstep : ∀ (e : Event) (st : IotState),
      validGradeB st.gradePython = true →
      validGradeB (applyEvent st e).gradePython = true := by
    intro e st h
    cases e with
    | msg t p => exact callback_validGrade st t p h
    | cycle inbound ready reads =>
      rcases loop_state_cases st inbound ready reads with he | he
      · simp only [applyEvent, he]
        decide
      · simp only [applyEvent, he]
        exact clientLoop_preserve (fun c => validGradeB c = true)
          (fun s t m h' => callback_validGrade s t m h') inbound st h
  have hrun : ∀ (evs : List Event) (st : IotState),
      validGradeB st.gradePython = true →
      validGradeB (runEvents st evs).gradePython = true := by
    intro evs
    induction evs with
    | nil => intro st h; exact h
    | cons e rest ih => intro st h; exact ih _ (hstep e st h)
  constructor
  · intro evs
    exact hrun evs initState (by decide)
  · intro st inbound ready reads hv hne
    have hval : validGradeB (clientLoop st inbound).1.gradePython = true :=
      clientLoop_preserve (fun c => validGradeB c = true)
        (fun s t m h' => callback_validGrade s t m h') inbound st hv
    constructor
    · simp only [loop]
      rw [if_pos hne]
    · simp only [validGradeB, Bool.or_eq_true, decide_eq_true_eq] at hval
      rcases hval with ((h | h) | h) | h
      · exact absurd h hne
      · exact Or.inl h
      · exact Or.inr (Or.inl h)
      · exact Or.inr (Or.inr h)

/-- Witness for C9: after receiving `"B"` and running a cycle, the slot
is valid; the override path from `'B'` actuates exactly `'B'`. -/
theorem gradePython_invariant_witness :
    validGradeB (runEvents initState
        [Event.msg gradeTopic "B",
         Event.cycle [] true (fun _ => 0)]).gradePython = true ∧
      ((loop ⟨'B'⟩ [] true (fun _ => 0)).actuated
          = some (clientLoop ⟨'B'⟩ []).1.gradePython ∧
        ((clientLoop ⟨'B'⟩ []).1.gradePython = 'A' ∨
          (clientLoop ⟨'B'⟩ []).1.gradePython = 'B' ∨
          (clientLoop ⟨'B'⟩ []).1.gradePython = 'C')) :=
  ⟨gradePython_invariant.1
      [Event.msg gradeTopic "B", Event.cycle [] true (fun _ => 0)],
   gradePython_invariant.2 ⟨'B'⟩ [] true (fun _ => 0) (by decide) (by decide)⟩

end DragonFruit
